import Mathlib

/-!
# Load-balancer simulation: shallow embedding and verification

A shallow embedding of the request-dispatch simulation implemented in
`src/Request.cpp`, `src/WebServer.cpp`, `src/LoadBalancer.cpp`.  Pure data is
translated to Lean structures; the mutating loop bodies become state-passing
functions.  C++ `int` fields that can go negative in principle are `Int`;
counters and the clock, which only ever increase from 0, are `Nat`.  The random
source (`rand()`) is made explicit: every function that consumed `rand()` draws
in C++ takes the drawn values as parameters, so runs are deterministic functions
of the injected draw streams.  `std::stoi` is modelled as a total function into
`Except` (the C++ function throws on bad input).  File/console logging
(`logFile`, `std::cout`) changes no engine state and is modelled by the identity
`reportPhase`.
-/

/-- `Request` from `Request.h`/`Request.cpp`: immutable value with source and
destination address, job-class flag, processing time and arrival tick. -/
structure Request where
  ipIn : String
  ipOut : String
  isStreaming : Bool
  processingTime : Int
  arrivalTime : Int
deriving DecidableEq, Repr

/-- `WebServer` from `WebServer.h`: id, availability flag, current request and
remaining processing time. -/
structure WebServer where
  serverID : Nat
  isAvailable : Bool
  currentRequest : Request
  timeRemaining : Int
deriving DecidableEq, Repr

/-- The empty request used to initialise `currentRequest` in the `WebServer`
constructor: `Request("", "", false, 0, 0)`. -/
def emptyRequest : Request :=
  { ipIn := "", ipOut := "", isStreaming := false, processingTime := 0, arrivalTime := 0 }

/-- `WebServer::WebServer(int id)`: starts available with no request and zero
remaining time. -/
def WebServer.mk0 (id : Nat) : WebServer :=
  { serverID := id, isAvailable := true, currentRequest := emptyRequest, timeRemaining := 0 }

/-- `WebServer::isNotActive()`: returns the availability flag. -/
def WebServer.isNotActive (w : WebServer) : Bool :=
  w.isAvailable

/-- `WebServer::processRequest(const Request&)`: store the request, set
`timeRemaining` from it, mark the server unavailable. -/
def WebServer.processRequest (w : WebServer) (r : Request) : WebServer :=
  { w with currentRequest := r, timeRemaining := r.processingTime, isAvailable := false }

/-- `WebServer::handleRequest()`: if busy with positive remaining time,
decrement it; on reaching exactly 0 the server becomes available again. -/
def WebServer.handleRequest (w : WebServer) : WebServer :=
  if w.isAvailable = false ∧ 0 < w.timeRemaining then
    let t := w.timeRemaining - 1
    { w with timeRemaining := t, isAvailable := if t = 0 then true else w.isAvailable }
  else w

/-- Error raised by the model of `std::stoi` (the exceptions
`std::invalid_argument` and `std::out_of_range` thrown by the C++ function). -/
inductive StoiErr where
  | invalidArgument
  | outOfRange
deriving DecidableEq, Repr

/-- Whitespace skipped by `std::stoi` (C `isspace` in the default locale). -/
def isSpaceChar (c : Char) : Bool :=
  c = ' ' || c = '\t' || c = '\n' || c = '\r' || c = '\x0b' || c = '\x0c'

/-- Value of a digit string, most significant first. -/
def digitsToNat (ds : List Char) : Nat :=
  ds.foldl (fun a c => a * 10 + (c.toNat - 48)) 0

/-- Digits-and-sign part of `std::stoi`: at least one leading digit is required,
the longest digit prefix is converted, and values outside the `int` range raise
`out_of_range`. -/
def stoiCore (cs : List Char) (neg : Bool) : Except StoiErr Int :=
  let ds := cs.takeWhile Char.isDigit
  if ds.isEmpty then .error .invalidArgument
  else
    let v : Int := (digitsToNat ds : Nat)
    let v := if neg then -v else v
    if v < -2147483648 ∨ 2147483647 < v then .error .outOfRange else .ok v

/-- Model of `std::stoi` on a `std::string`: skip leading whitespace, read an
optional sign, then convert the longest digit prefix. -/
def stoi (s : String) : Except StoiErr Int :=
  match s.toList.dropWhile isSpaceChar with
  | '+' :: rest => stoiCore rest false
  | '-' :: rest => stoiCore rest true
  | rest => stoiCore rest false

/-- `ip.substr(0, ip.find('.'))`: the prefix of the address before the first
dot (the whole string when there is no dot, since `find` returns `npos`). -/
def firstComponent (ip : String) : String :=
  String.mk (ip.toList.takeWhile (fun c => c != '.'))

/-- `LoadBalancer::isBlockedIP`: parse the first octet with `std::stoi` and
test membership in the closed range [192, 200].  The C++ function lets the
`std::stoi` exception escape on an unparseable leading component; the model
returns it as an `Except.error`. -/
def isBlockedIP (ip : String) : Except StoiErr Bool :=
  match stoi (firstComponent ip) with
  | .error e => .error e
  | .ok firstOctet => .ok (decide (192 ≤ firstOctet ∧ firstOctet ≤ 200))

/-- `LoadBalancer::generate_IP()` with the four `rand()` draws made explicit:
four octets `draw % 256` joined by dots. -/
def generate_IP (a b c d : Nat) : String :=
  toString (a % 256) ++ "." ++ toString (b % 256) ++ "." ++
  toString (c % 256) ++ "." ++ toString (d % 256)

/-- `LoadBalancer::genRandReq()` with the random draws made explicit: the two
generated addresses, the coin `rand() % 2 == 0` choosing the job class, the
service-time draw, and the current clock cycle.  Streaming jobs cost
`draw % 4 + 12` cycles, processing jobs `draw % 11 + 30`. -/
def genRandReq (ipIn ipOut : String) (coin timeDraw : Nat) (clock : Nat) : Request :=
  { ipIn := ipIn
    ipOut := ipOut
    isStreaming := coin % 2 = 0
    processingTime :=
      if coin % 2 = 0 then ((timeDraw % 4 + 12 : Nat) : Int)
      else ((timeDraw % 11 + 30 : Nat) : Int)
    arrivalTime := (clock : Int) }

/-- `SCALE_WAIT` from `LoadBalancer.h`. -/
def SCALE_WAIT : Nat := 3

/-- The `LoadBalancer` state: the FIFO request queue (head = front), the worker
pool in append order, the clock, the configured run length, the scaling
cooldown and the two cumulative counters. -/
structure LBState where
  requestQueue : List Request
  webServers : List WebServer
  currentClockCycle : Nat
  runningTime : Nat
  scaleCooldown : Nat
  totalRequestsProcessed : Nat
  blockedRequests : Nat
deriving DecidableEq, Repr

/-- `LoadBalancer::createWebServers`: servers with ids `0, …, n-1` in pool
order. -/
def createWebServers (n : Nat) : List WebServer :=
  (List.range n).map WebServer.mk0

/-- `LoadBalancer::populateReqQueue`: push `numOfServers * 20` generated
requests; the generator draws are abstracted as the function `gen`. -/
def populateReqQueue (gen : Nat → Request) (n : Nat) : List Request :=
  (List.range (n * 20)).map gen

/-- The `LoadBalancer` constructor: clock 0, cooldown 0, zero counters, initial
pool of `numServers` servers and a pre-populated queue of `numServers * 20`
generated requests. -/
def LBState.init (gen : Nat → Request) (numServers runTime : Nat) : LBState :=
  { requestQueue := populateReqQueue gen numServers
    webServers := createWebServers numServers
    currentClockCycle := 0
    runningTime := runTime
    scaleCooldown := 0
    totalRequestsProcessed := 0
    blockedRequests := 0 }

/-- The clock increment `currentClockCycle++` at the top of the `Run` loop
body. -/
def bumpClock (st : LBState) : LBState :=
  { st with currentClockCycle := st.currentClockCycle + 1 }

/-- The arrival block of the `Run` loop body.  `arrival = none` models a failed
`rand() % 100 < 90` draw; `arrival = some req` models a successful draw that
generated `req`.  A blocked origin address increments `blockedRequests` and
discards the request; otherwise the request is pushed at the queue tail.  An
unparseable origin address propagates the `std::stoi` exception. -/
def arrivalPhase (arrival : Option Request) (st : LBState) : Except StoiErr LBState :=
  match arrival with
  | none => .ok st
  | some req =>
    match isBlockedIP req.ipIn with
    | .error e => .error e
    | .ok true => .ok { st with blockedRequests := st.blockedRequests + 1 }
    | .ok false => .ok { st with requestQueue := st.requestQueue ++ [req] }

/-- The advance block: `server.handleRequest()` on every server in pool
order. -/
def advancePhase (st : LBState) : LBState :=
  { st with webServers := st.webServers.map WebServer.handleRequest }

/-- The dispatch loop: walk the pool in order; every available server pops the
queue front, receives it via `processRequest`, and `totalRequestsProcessed` is
incremented.  Returns the new pool, the remaining queue and the new counter. -/
def dispatchLoop : List WebServer → List Request → Nat → List WebServer × List Request × Nat
  | [], q, c => ([], q, c)
  | w :: ws, [], c =>
    let out := dispatchLoop ws [] c
    (w :: out.1, out.2.1, out.2.2)
  | w :: ws, r :: q, c =>
    if w.isNotActive then
      let out := dispatchLoop ws q (c + 1)
      (w.processRequest r :: out.1, out.2.1, out.2.2)
    else
      let out := dispatchLoop ws (r :: q) c
      (w :: out.1, out.2.1, out.2.2)

/-- The dispatch block of the `Run` loop body, as a state transformer. -/
def dispatchPhase (st : LBState) : LBState :=
  let out := dispatchLoop st.webServers st.requestQueue st.totalRequestsProcessed
  { st with webServers := out.1, requestQueue := out.2.1, totalRequestsProcessed := out.2.2 }

/-- `LoadBalancer::scaleServers()`: while the cooldown is positive, decrement
it and do nothing else; otherwise add a server (id = current pool size) when
the queue exceeds `25 * n`, or unconditionally pop the last server when the
queue is below `15 * n` and `n > 1`; both actions reset the cooldown to
`SCALE_WAIT`. -/
def scaleServers (st : LBState) : LBState :=
  if 0 < st.scaleCooldown then { st with scaleCooldown := st.scaleCooldown - 1 }
  else if 25 * st.webServers.length < st.requestQueue.length then
    { st with webServers := st.webServers ++ [WebServer.mk0 st.webServers.length]
              scaleCooldown := SCALE_WAIT }
  else if st.requestQueue.length < 15 * st.webServers.length ∧ 1 < st.webServers.length then
    { st with webServers := st.webServers.dropLast
              scaleCooldown := SCALE_WAIT }
  else st

/-- The report block (`logState` / `printSummary` every 50 cycles): pure
logging, no engine state change. -/
def reportPhase (st : LBState) : LBState := st

/-- One iteration of the `Run` loop: increment the clock, then Arrival,
Advance, Dispatch, Autoscale, Report, in that order. -/
def tickStep (arrival : Option Request) (st : LBState) : Except StoiErr LBState :=
  match arrivalPhase arrival (bumpClock st) with
  | .error e => .error e
  | .ok stA => .ok (reportPhase (scaleServers (dispatchPhase (advancePhase stA))))

/-- The `Run` loop with explicit fuel: run `tickStep` while
`currentClockCycle < runningTime`, feeding each tick the arrival decided by
the oracle for the pre-tick clock value. -/
def runLoop (oracle : Nat → Option Request) : Nat → LBState → Except StoiErr LBState
  | 0, st => .ok st
  | fuel + 1, st =>
    if st.currentClockCycle < st.runningTime then
      match tickStep (oracle st.currentClockCycle) st with
      | .error e => .error e
      | .ok st' => runLoop oracle fuel st'
    else .ok st

/-- `LoadBalancer::Run()`: iterate the loop body until the clock reaches the
configured run length. -/
def LBState.Run (oracle : Nat → Option Request) (st : LBState) : Except StoiErr LBState :=
  runLoop oracle (st.runningTime - st.currentClockCycle) st

/-- Number of available (idle) servers in a pool. -/
def idleCount (ws : List WebServer) : Nat :=
  (ws.filter (fun w => w.isNotActive)).length

/-- Number of servers that would transition from busy to idle if
`handleRequest` were called on each server of the pool (the Busy → Idle
completions of the Advance step). -/
def busyToIdleCount (ws : List WebServer) : Nat :=
  (ws.filter (fun w => !w.isAvailable && w.handleRequest.isAvailable)).length

/-- Per-worker invariant: remaining time is non-negative and the server is
available exactly when it is zero. -/
def WInv (w : WebServer) : Prop :=
  0 ≤ w.timeRemaining ∧ (w.isAvailable = true ↔ w.timeRemaining = 0)

/-- Engine invariant: every queued request has positive processing time, every
pooled server satisfies `WInv`, and the pool ids are exactly `0, …, n-1` in
order. -/
def StInv (st : LBState) : Prop :=
  (∀ r ∈ st.requestQueue, 1 ≤ r.processingTime) ∧
  (∀ w ∈ st.webServers, WInv w) ∧
  st.webServers.map WebServer.serverID = List.range st.webServers.length

/-- A request of the shape produced by `LoadBalancer::genRandReq` (for some
values of the random draws). -/
def isGenerated (r : Request) : Prop :=
  ∃ ipIn ipOut coin timeDraw clock, r = genRandReq ipIn ipOut coin timeDraw clock

/-- Engine states reachable by the program: a freshly constructed balancer
(whose pre-populated queue holds `genRandReq` outputs), then any number of
`Run`-loop iterations, each without an arrival (failed `rand() % 100 < 90`
draw) or with an arrival produced by `genRandReq` at the post-increment
clock. -/
inductive Reachable : LBState → Prop where
  | init (gen : Nat → Request) (hgen : ∀ i, isGenerated (gen i)) (numServers runTime : Nat) :
      Reachable (LBState.init gen numServers runTime)
  | stepNone {st st' : LBState} : Reachable st → tickStep none st = .ok st' → Reachable st'
  | stepArrival {st st' : LBState} (ipIn ipOut : String) (coin timeDraw : Nat) :
      Reachable st →
      tickStep (some (genRandReq ipIn ipOut coin timeDraw (st.currentClockCycle + 1))) st
        = .ok st' →
      Reachable st'

/-- A sample `genRandReq` output (coin 0, draw 0): a streaming request with
processing time 12. -/
def sampleReq : Request := genRandReq "1.2.3.4" "5.6.7.8" 0 0 0

/-- A deterministic generator pinned to `sampleReq`. -/
def sampleGen : Nat → Request := fun _ => sampleReq

/-- The spec's one-tick scenario request: admission probability forced to
100 %, service-time generator forced to return 5, unblocked origin address. -/
def fiveReq : Request :=
  { ipIn := "1.2.3.4", ipOut := "5.6.7.8", isStreaming := true
    processingTime := 5, arrivalTime := 1 }

/-- The run of the one-tick scenario: 1 worker, run length 1 tick, every
admission draw succeeds, every generated request is `fiveReq`. -/
def scenario5Run : Except StoiErr LBState :=
  LBState.Run (fun _ => some fiveReq) (LBState.init (fun _ => fiveReq) 1 1)

/-- Observation of a run used in the one-tick scenario: per worker the pair
(available?, remaining time), then the queue length, then the processed
counter. -/
def scenarioView (e : Except StoiErr LBState) : Except StoiErr (List (Bool × Int) × Nat × Nat) :=
  e.map (fun s =>
    (s.webServers.map (fun w => (w.isNotActive, w.timeRemaining)),
      s.requestQueue.length, s.totalRequestsProcessed))

/-- A state with a single idle worker, one queued request and cooldown 0. -/
def oneIdleState : LBState :=
  { requestQueue := [sampleReq], webServers := [WebServer.mk0 0]
    currentClockCycle := 0, runningTime := 5, scaleCooldown := 0
    totalRequestsProcessed := 0, blockedRequests := 0 }

/-- The state after one loop iteration on `oneIdleState` without arrival. -/
def oneIdleTickResult : LBState :=
  reportPhase (scaleServers (dispatchPhase (advancePhase (bumpClock oneIdleState))))

/-- A state whose most-recently-added worker is busy, with an empty queue,
two workers and cooldown 0 (the scale-down condition holds). -/
def busyLastState : LBState :=
  { requestQueue := [], webServers := [WebServer.mk0 0, (WebServer.mk0 1).processRequest sampleReq]
    currentClockCycle := 0, runningTime := 5, scaleCooldown := 0
    totalRequestsProcessed := 2, blockedRequests := 0 }

/-- The spec's scale-up scenario state: queue length 26, one worker,
cooldown 0. -/
def pressureState : LBState :=
  { requestQueue := List.replicate 26 sampleReq, webServers := [WebServer.mk0 0]
    currentClockCycle := 0, runningTime := 100, scaleCooldown := 0
    totalRequestsProcessed := 0, blockedRequests := 0 }

/-- `pressureState` with a positive cooldown. -/
def coolingState : LBState :=
  { pressureState with scaleCooldown := 2 }

/-- A request whose origin address has numeric first octet 193 (inside the
blocked range). -/
def blockedReq : Request :=
  { ipIn := "193.10.1.1", ipOut := "1.1.1.1", isStreaming := false
    processingTime := 30, arrivalTime := 0 }

/-- A request whose origin address has an unparseable leading component. -/
def badReq : Request :=
  { ipIn := "abc.10.1.1", ipOut := "1.1.1.1", isStreaming := false
    processingTime := 30, arrivalTime := 0 }

/-- Ids of the worker pool after `k` loop iterations of the id-reuse run:
2 initial workers, run length 65, no admitted arrivals (every
`rand() % 100 < 90` draw fails), all pre-populated requests costing 12. -/
def reuseTraceIds (k : Nat) : Except StoiErr (List Nat) :=
  (runLoop (fun _ => none) k (LBState.init sampleGen 2 65)).map
    (fun s => s.webServers.map WebServer.serverID)

theorem isGenerated_processingTime {r : Request} (h : isGenerated r) :
    12 ≤ r.processingTime := by
  obtain ⟨ipIn, ipOut, coin, timeDraw, clock, rfl⟩ := h
  simp only [genRandReq]
  split <;> (push_cast; omega)

theorem processRequest_serverID (w : WebServer) (r : Request) :
    (w.processRequest r).serverID = w.serverID := rfl

theorem processRequest_timeRemaining (w : WebServer) (r : Request) :
    (w.processRequest r).timeRemaining = r.processingTime := rfl

theorem handleRequest_serverID (w : WebServer) :
    w.handleRequest.serverID = w.serverID := by
  unfold WebServer.handleRequest
  split <;> rfl

theorem handleRequest_of_idle {w : WebServer} (h : w.isAvailable = true) :
    w.handleRequest = w := by
  unfold WebServer.handleRequest
  rw [if_neg]
  simp [h]

theorem handleRequest_nonneg {w : WebServer} (h : 0 ≤ w.timeRemaining) :
    0 ≤ w.handleRequest.timeRemaining := by
  unfold WebServer.handleRequest
  split
  · simp only
    omega
  · exact h

theorem handleRequest_WInv {w : WebServer} (h : WInv w) : WInv w.handleRequest := by
  obtain ⟨h0, hiff⟩ := h
  unfold WebServer.handleRequest
  split
  case isTrue hc =>
    refine ⟨by simp only; omega, ?_⟩
    simp only
    by_cases ht : w.timeRemaining - 1 = 0 <;> simp [ht, hc.1]
  case isFalse hc => exact ⟨h0, hiff⟩

theorem processRequest_WInv {w : WebServer} {r : Request} (h : 1 ≤ r.processingTime) :
    WInv (w.processRequest r) := by
  refine ⟨by simpa [WebServer.processRequest] using by omega, ?_⟩
  simp only [WebServer.processRequest]
  constructor
  · intro hfalse
    exact absurd hfalse (by simp)
  · intro h0
    omega

theorem WInv_mk0 (id : Nat) : WInv (WebServer.mk0 id) := by
  constructor <;> simp [WebServer.mk0]

theorem forall2_mem_right {α β : Type} {R : α → β → Prop} :
    ∀ {l₁ : List α} {l₂ : List β}, List.Forall₂ R l₁ l₂ →
      ∀ b ∈ l₂, ∃ a ∈ l₁, R a b := by
  intro l₁ l₂ h
  induction h with
  | nil => simp
  | cons hr _ ih =>
    intro b hb
    rcases List.mem_cons.mp hb with rfl | hb
    · exact ⟨_, List.mem_cons_self _ _, hr⟩
    · obtain ⟨a, ha, hab⟩ := ih b hb
      exact ⟨a, List.mem_cons_of_mem _ ha, hab⟩

theorem forall2_map_eq {α β γ : Type} (f : α → γ) (g : β → γ) :
    ∀ {l₁ : List α} {l₂ : List β}, List.Forall₂ (fun a b => g b = f a) l₁ l₂ →
      l₂.map g = l₁.map f := by
  intro l₁ l₂ h
  induction h with
  | nil => rfl
  | cons hr _ ih => simp [ih, hr]

/-- Every server of the dispatch loop's output pool is the corresponding input
server, either untouched or assigned some request taken from the queue. -/
theorem dispatchLoop_rel : ∀ (ws : List WebServer) (q : List Request) (c : Nat),
    List.Forall₂ (fun w w' => w' = w ∨ ∃ r, r ∈ q ∧ w' = w.processRequest r)
      ws (dispatchLoop ws q c).1 := by
  intro ws
  induction ws with
  | nil => intro q c; exact List.Forall₂.nil
  | cons w ws ih =>
    intro q c
    match q with
    | [] =>
      simp only [dispatchLoop]
      exact List.Forall₂.cons (Or.inl rfl) (ih [] c)
    | r :: q' =>
      simp only [dispatchLoop]
      split
      · exact List.Forall₂.cons (Or.inr ⟨r, List.mem_cons_self _ _, rfl⟩)
          ((ih q' (c + 1)).imp (fun _ _ h => h.imp id
            (fun ⟨r', hr', he⟩ => ⟨r', List.mem_cons_of_mem _ hr', he⟩)))
      · exact List.Forall₂.cons (Or.inl rfl) (ih (r :: q') c)

/-- The dispatch loop never invents queue elements: its leftover queue is a
subcollection of the input queue. -/
theorem dispatchLoop_queue_mem : ∀ (ws : List WebServer) (q : List Request) (c : Nat),
    ∀ r ∈ (dispatchLoop ws q c).2.1, r ∈ q := by
  intro ws
  induction ws with
  | nil => intro q c; simp [dispatchLoop]
  | cons w ws ih =>
    intro q c
    match q with
    | [] => simpa [dispatchLoop] using ih [] c
    | r :: q' =>
      simp only [dispatchLoop]
      split
      · intro x hx
        exact List.mem_cons_of_mem _ (ih q' (c + 1) x hx)
      · exact ih (r :: q') c

/-- The dispatch loop performs exactly `min (idle servers) (queue length)`
assignments, each adding 1 to the processed counter. -/
theorem dispatchLoop_count : ∀ (ws : List WebServer) (q : List Request) (c : Nat),
    (dispatchLoop ws q c).2.2 = c + min (idleCount ws) q.length := by
  intro ws
  induction ws with
  | nil => intro q c; simp [dispatchLoop, idleCount]
  | cons w ws ih =>
    intro q c
    match q with
    | [] => simp [dispatchLoop, ih [] c]
    | r :: q' =>
      simp only [dispatchLoop]
      split
      case isTrue hw =>
        rw [ih q' (c + 1)]
        simp only [idleCount, List.filter_cons, hw, if_pos, List.length_cons]
        simp only [idleCount] at *
        omega
      case isFalse hw =>
        rw [ih (r :: q') c]
        simp only [idleCount, List.filter_cons]
        rw [if_neg (by simpa using hw)]

/-- A successful arrival phase leaves every field except the queue and the
blocked counter unchanged, and either keeps the queue or appends the arrived
request at its tail. -/
theorem arrivalPhase_state {arrival : Option Request} {st st' : LBState}
    (h : arrivalPhase arrival st = .ok st') :
    st'.webServers = st.webServers ∧
    st'.totalRequestsProcessed = st.totalRequestsProcessed ∧
    st'.currentClockCycle = st.currentClockCycle ∧
    st'.scaleCooldown = st.scaleCooldown ∧
    st'.runningTime = st.runningTime ∧
    (st'.requestQueue = st.requestQueue ∨
      ∃ req, arrival = some req ∧ st'.requestQueue = st.requestQueue ++ [req]) := by
  match arrival with
  | none =>
    simp only [arrivalPhase, Except.ok.injEq] at h
    subst h
    simp
  | some req =>
    simp only [arrivalPhase] at h
    match hb : isBlockedIP req.ipIn with
    | .error e => rw [hb] at h; exact absurd h (by simp)
    | .ok true =>
      rw [hb] at h
      simp only [Except.ok.injEq] at h
      subst h
      simp
    | .ok false =>
      rw [hb] at h
      simp only [Except.ok.injEq] at h
      subst h
      exact ⟨rfl, rfl, rfl, rfl, rfl, Or.inr ⟨req, rfl, rfl⟩⟩

theorem scaleServers_fields (st : LBState) :
    (scaleServers st).requestQueue = st.requestQueue ∧
    (scaleServers st).totalRequestsProcessed = st.totalRequestsProcessed ∧
    (scaleServers st).blockedRequests = st.blockedRequests ∧
    (scaleServers st).currentClockCycle = st.currentClockCycle ∧
    (scaleServers st).runningTime = st.runningTime := by
  unfold scaleServers
  split_ifs <;> simp

/-- The autoscaler changes the pool in only three ways: not at all, popping the
last server, or appending a fresh server whose id is the pool size. -/
theorem scaleServers_pool_cases (st : LBState) :
    (scaleServers st).webServers = st.webServers ∨
    (scaleServers st).webServers = st.webServers.dropLast ∨
    (scaleServers st).webServers
      = st.webServers ++ [WebServer.mk0 st.webServers.length] := by
  unfold scaleServers
  split_ifs
  · exact Or.inl rfl
  · exact Or.inr (Or.inr rfl)
  · exact Or.inr (Or.inl rfl)
  · exact Or.inl rfl

theorem advancePhase_fields (st : LBState) :
    (advancePhase st).requestQueue = st.requestQueue ∧
    (advancePhase st).totalRequestsProcessed = st.totalRequestsProcessed ∧
    (advancePhase st).blockedRequests = st.blockedRequests ∧
    (advancePhase st).webServers = st.webServers.map WebServer.handleRequest := by
  simp [advancePhase]

theorem dispatchPhase_processed (st : LBState) :
    (dispatchPhase st).totalRequestsProcessed
      = st.totalRequestsProcessed + min (idleCount st.webServers) st.requestQueue.length := by
  simp [dispatchPhase, dispatchLoop_count]

/-- Preservation of the engine invariant by one loop iteration, provided any
arriving request has positive processing time. -/
theorem tickStep_StInv {arrival : Option Request} {st st' : LBState}
    (hgood : ∀ req, arrival = some req → 1 ≤ req.processingTime)
    (hinv : StInv st) (h : tickStep arrival st = .ok st') : StInv st' := by
  obtain ⟨hq, hw, hid⟩ := hinv
  unfold tickStep at h
  match hA : arrivalPhase arrival (bumpClock st) with
  | .error e => rw [hA] at h; exact absurd h (by simp)
  | .ok stA =>
    rw [hA] at h
    simp only [Except.ok.injEq] at h
    obtain ⟨hAw, _, _, _, _, hAq⟩ := arrivalPhase_state hA
    -- invariant after the arrival phase
    have hqA : ∀ r ∈ stA.requestQueue, 1 ≤ r.processingTime := by
      rcases hAq with hsame | ⟨req, harr, happ⟩
      · rw [hsame]; simpa [bumpClock] using hq
      · rw [happ]
        intro r hr
        rcases List.mem_append.mp hr with hr | hr
        · exact hq r (by simpa [bumpClock] using hr)
        · rw [List.mem_singleton.mp hr]; exact hgood req harr
    have hwA : ∀ w ∈ stA.webServers, WInv w := by
      rw [hAw]; simpa [bumpClock] using hw
    have hidA : stA.webServers.map WebServer.serverID = List.range stA.webServers.length := by
      rw [hAw]; simpa [bumpClock] using hid
    -- invariant after the advance phase
    set stB := advancePhase stA with hB
    have hqB : ∀ r ∈ stB.requestQueue, 1 ≤ r.processingTime := by
      simpa [hB, advancePhase] using hqA
    have hwB : ∀ w ∈ stB.webServers, WInv w := by
      simp only [hB, advancePhase, List.mem_map]
      rintro w ⟨w₀, hw₀, rfl⟩
      exact handleRequest_WInv (hwA w₀ hw₀)
    have hidB : stB.webServers.map WebServer.serverID = List.range stB.webServers.length := by
      simp only [hB, advancePhase, List.map_map, List.length_map]
      have : (WebServer.serverID ∘ WebServer.handleRequest) = WebServer.serverID := by
        funext w; exact handleRequest_serverID w
      rw [this]; exact hidA
    -- invariant after the dispatch phase
    set stC := dispatchPhase stB with hC
    have hrel := dispatchLoop_rel stB.webServers stB.requestQueue stB.totalRequestsProcessed
    have hqC : ∀ r ∈ stC.requestQueue, 1 ≤ r.processingTime := by
      intro r hr
      exact hqB r (dispatchLoop_queue_mem stB.webServers stB.requestQueue
        stB.totalRequestsProcessed r (by simpa [hC, dispatchPhase] using hr))
    have hwC : ∀ w ∈ stC.webServers, WInv w := by
      intro w' hw'
      obtain ⟨w₀, hw₀, hcase⟩ := forall2_mem_right hrel w' (by simpa [hC, dispatchPhase] using hw')
      rcases hcase with rfl | ⟨r, hrq, rfl⟩
      · exact hwB _ hw₀
      · exact processRequest_WInv (hqB r hrq)
    have hidC : stC.webServers.map WebServer.serverID = List.range stC.webServers.length := by
      have hids : stC.webServers.map WebServer.serverID
          = stB.webServers.map WebServer.serverID := by
        apply forall2_map_eq WebServer.serverID WebServer.serverID
        have heq : stC.webServers
            = (dispatchLoop stB.webServers stB.requestQueue stB.totalRequestsProcessed).1 := by
          simp [hC, dispatchPhase]
        rw [heq]
        refine List.Forall₂.imp ?_ hrel
        intro w₀ w' hcase
        rcases hcase with rfl | ⟨r, _, rfl⟩
        · rfl
        · exact processRequest_serverID w₀ r
      have hlen : stC.webServers.length = stB.webServers.length := by
        have := hrel.length_eq
        simpa [hC, dispatchPhase] using this.symm
      rw [hids, hlen, hidB]
    -- invariant after the autoscale phase
    subst h
    refine ⟨?_, ?_, ?_⟩
    · simpa [reportPhase, (scaleServers_fields stC).1] using hqC
    · intro w hw'
      rcases scaleServers_pool_cases stC with hp | hp | hp
      · exact hwC w (by simpa [reportPhase, hp] using hw')
      · have : w ∈ stC.webServers := by
          have hsub : List.Sublist stC.webServers.dropLast stC.webServers :=
            List.dropLast_sublist stC.webServers
          exact hsub.mem (by simpa [reportPhase, hp] using hw')
        exact hwC w this
      · have hw'' : w ∈ stC.webServers ++ [WebServer.mk0 stC.webServers.length] := by
          simpa [reportPhase, hp] using hw'
        rcases List.mem_append.mp hw'' with hmem | hmem
        · exact hwC w hmem
        · rw [List.mem_singleton.mp hmem]; exact WInv_mk0 _
    · rcases scaleServers_pool_cases stC with hp | hp | hp
      · simpa [reportPhase, hp] using hidC
      · simp only [reportPhase, hp]
        rw [List.map_dropLast, hidC, List.length_dropLast]
        cases hn : stC.webServers.length with
        | zero => simp
        | succ n =>
          rw [List.range_succ, Nat.add_sub_cancel]
          exact List.dropLast_concat
      · simp only [reportPhase, hp]
        rw [List.map_append, hidC, List.length_append]
        simp [List.range_succ, WebServer.mk0]

/-- Every reachable engine state satisfies the invariant. -/
theorem reachable_StInv {st : LBState} (h : Reachable st) : StInv st := by
  induction h with
  | init gen hgen numServers runTime =>
    refine ⟨?_, ?_, ?_⟩
    · intro r hr
      simp only [LBState.init, populateReqQueue, List.mem_map] at hr
      obtain ⟨i, _, rfl⟩ := hr
      exact le_trans (by omega) (isGenerated_processingTime (hgen i))
    · intro w hw
      simp only [LBState.init, createWebServers, List.mem_map] at hw
      obtain ⟨i, _, rfl⟩ := hw
      exact WInv_mk0 i
    · show (createWebServers numServers).map WebServer.serverID
        = List.range (createWebServers numServers).length
      simp only [createWebServers, List.map_map, List.length_map, List.length_range]
      have hfun : ∀ i ∈ List.range numServers, (WebServer.serverID ∘ WebServer.mk0) i = id i :=
        fun i _ => rfl
      rw [List.map_congr_left hfun, List.map_id]
  | stepNone _ hstep ih =>
    exact tickStep_StInv (by simp) ih hstep
  | stepArrival ipIn ipOut coin timeDraw _ hstep ih =>
    refine tickStep_StInv ?_ ih hstep
    intro req harr
    have : isGenerated req := ⟨ipIn, ipOut, coin, timeDraw, _, (Option.some.injEq _ _ ▸ harr).symm⟩
    exact le_trans (by omega) (isGenerated_processingTime this)

/-- C10: at construction, before any tick executes, the engine pre-populates
the pending queue with exactly 20 synthetic requests per initial worker, so
with `n` initial workers the queue length at tick 0 is `20 * n` and the queue
is non-empty whenever there is at least one worker. -/
theorem init_prepopulates_queue (gen : Nat → Request) (numServers runTime : Nat) :
    (LBState.init gen numServers runTime).requestQueue.length = 20 * numServers ∧
    (1 ≤ numServers → (LBState.init gen numServers runTime).requestQueue ≠ []) := by
  constructor
  · simp [LBState.init, populateReqQueue, Nat.mul_comm]
  · intro hn
    have hlen : (LBState.init gen numServers runTime).requestQueue.length = 20 * numServers := by
      simp [LBState.init, populateReqQueue, Nat.mul_comm]
    intro hnil
    rw [hnil] at hlen
    simp at hlen
    omega

theorem init_prepopulates_queue_witness :
    1 ≤ 1 ∧ (LBState.init sampleGen 1 7).requestQueue ≠ [] :=
  ⟨le_refl 1, (init_prepopulates_queue sampleGen 1 7).2 (le_refl 1)⟩

/-- C7 (against the code as written): on a request whose origin address has an
unparseable leading component, the admission filter does not produce any
rejected/blocked outcome.  `std::stoi` raises `invalid_argument` inside
`isBlockedIP`, nothing catches it, and the whole loop iteration aborts with the
exception instead of incrementing `blockedRequests` and continuing. -/
theorem malformed_address_aborts_run :
    stoi (firstComponent "abc.10.1.1") = .error .invalidArgument ∧
    isBlockedIP "abc.10.1.1" = .error .invalidArgument ∧
    (∀ st : LBState, arrivalPhase (some badReq) st = .error .invalidArgument) ∧
    (∀ st : LBState, tickStep (some badReq) st = .error .invalidArgument) :=
  ⟨rfl, rfl, fun _ => rfl, fun _ => rfl⟩

/-- C2 counterexample: in the pinned one-tick scenario the run does not end
with remaining time 4, empty queue and processed count 0; it ends with the
worker busy at remaining time 5, 20 queued requests and processed count 1. -/
theorem one_tick_scenario_claim_false :
    scenarioView scenario5Run = .ok ([(false, 5)], 20, 1) ∧
    scenarioView scenario5Run ≠ .ok ([(false, 4)], 0, 0) :=
  ⟨rfl, fun hcontra => by
    have h1 : scenarioView scenario5Run = Except.ok ([(false, 5)], 20, 1) := rfl
    rw [h1] at hcontra
    simp at hcontra⟩

/-- C2 amended: 1 worker, run length 1 tick, admission forced to 100 %,
service-time generator forced to 5: after tick 1 the worker is busy with
`remainingTime = 5` (a request dispatched in a tick is not advanced that same
tick), the queue holds 20 requests (the 20 pre-populated requests survive: one
is dispatched and the admitted arrival is appended), and `processedCount = 1`
(the counter is incremented at dispatch, not at completion). -/
theorem one_tick_scenario_amended :
    scenarioView scenario5Run = .ok ([(false, 5)], 20, 1) := rfl

/-- C9 counterexample: in the concrete run `reuseTraceIds` the worker with
id 1 exists after tick 60, is removed by scale-down at tick 61, and a worker
created later by scale-up at tick 65 again carries id 1 — a removed id is
reused. -/
theorem worker_id_reused :
    reuseTraceIds 60 = .ok [0, 1] ∧
    reuseTraceIds 61 = .ok [0] ∧
    reuseTraceIds 65 = .ok [0, 1] :=
  ⟨rfl, rfl, rfl⟩

/-- C9 amended: worker ids are assigned sequentially in pool-append order — in
every reachable state the pool ids are exactly `0, …, n-1` — but since a new
worker's id is the current pool size, the id freed by a removal is exactly the
one the next scale-up assigns again. -/
theorem worker_ids_sequential {st : LBState} (h : Reachable st) :
    st.webServers.map WebServer.serverID = List.range st.webServers.length :=
  (reachable_StInv h).2.2

theorem worker_ids_sequential_witness :
    (LBState.init sampleGen 2 65).webServers.map WebServer.serverID
      = List.range (LBState.init sampleGen 2 65).webServers.length :=
  worker_ids_sequential
    (Reachable.init sampleGen (fun _ => ⟨"1.2.3.4", "5.6.7.8", 0, 0, 0, rfl⟩) 2 65)

/-- C1 counterexample: in a tick on a state whose only worker is idle (so no
Busy → Idle transition can happen in the Advance step,
`busyToIdleCount = 0`), the processed counter nevertheless rises from 0 to 1,
because the code increments it when the Dispatch step assigns the queued
request — not at completion as the claim states. -/
theorem processed_counter_claim_false :
    busyToIdleCount oneIdleState.webServers = 0 ∧
    oneIdleState.totalRequestsProcessed = 0 ∧
    (tickStep none oneIdleState).map LBState.totalRequestsProcessed = .ok 1 :=
  ⟨rfl, rfl, rfl⟩

/-- C1 amended: per tick, `totalRequestsProcessed` grows by exactly the number
of Dispatch-step assignments — `min` of the idle workers after Advance and the
queue length after Arrival — and the Arrival and Advance steps (where the
Busy → Idle completions happen) leave the counter unchanged. -/
theorem processed_counts_dispatch (arrival : Option Request) (st stA st' : LBState)
    (hA : arrivalPhase arrival (bumpClock st) = .ok stA)
    (h : tickStep arrival st = .ok st') :
    st'.totalRequestsProcessed
      = st.totalRequestsProcessed
        + min (idleCount (advancePhase stA).webServers) (advancePhase stA).requestQueue.length ∧
    stA.totalRequestsProcessed = st.totalRequestsProcessed ∧
    (advancePhase stA).totalRequestsProcessed = st.totalRequestsProcessed := by
  have hAp : stA.totalRequestsProcessed = st.totalRequestsProcessed := by
    have := (arrivalPhase_state hA).2.1
    simpa [bumpClock] using this
  have hBp : (advancePhase stA).totalRequestsProcessed = st.totalRequestsProcessed := by
    rw [(advancePhase_fields stA).2.1, hAp]
  unfold tickStep at h
  rw [hA] at h
  simp only [Except.ok.injEq] at h
  subst h
  refine ⟨?_, hAp, hBp⟩
  show (scaleServers (dispatchPhase (advancePhase stA))).totalRequestsProcessed = _
  rw [(scaleServers_fields (dispatchPhase (advancePhase stA))).2.1,
    dispatchPhase_processed, hBp]

theorem processed_counts_dispatch_witness :
    arrivalPhase none (bumpClock oneIdleState) = .ok (bumpClock oneIdleState) ∧
    tickStep none oneIdleState = .ok oneIdleTickResult ∧
    oneIdleTickResult.totalRequestsProcessed
      = oneIdleState.totalRequestsProcessed
        + min (idleCount (advancePhase (bumpClock oneIdleState)).webServers)
            (advancePhase (bumpClock oneIdleState)).requestQueue.length :=
  ⟨rfl, rfl, (processed_counts_dispatch none oneIdleState (bumpClock oneIdleState)
    oneIdleTickResult rfl rfl).1⟩

/-- C3 counterexample: with cooldown 0, queue below `15 * n`, `n = 2`, and the
most-recently-added worker busy, `scaleServers` still removes that busy worker
(its in-flight request is silently discarded) — refuting the claim that
removal happens only if the worker is idle. -/
theorem scale_down_removes_busy_worker :
    busyLastState.webServers.getLast? = some ((WebServer.mk0 1).processRequest sampleReq) ∧
    ((WebServer.mk0 1).processRequest sampleReq).isNotActive = false ∧
    busyLastState.scaleCooldown = 0 ∧
    busyLastState.requestQueue.length < 15 * busyLastState.webServers.length ∧
    1 < busyLastState.webServers.length ∧
    (scaleServers busyLastState).webServers = [WebServer.mk0 0] :=
  ⟨rfl, rfl, rfl, by decide, by decide, rfl⟩

/-- C3 amended: with cooldown 0, `q < 15 * n` and `n > 1`, the scale-down
action removes the most-recently-added worker unconditionally — whatever its
state, discarding any in-flight request — and resets the cooldown; with
`n = 1` (and no scale-up pressure) the autoscaler takes no action at all. -/
theorem scale_down_unconditional (st : LBState)
    (hcd : st.scaleCooldown = 0)
    (hq : st.requestQueue.length < 15 * st.webServers.length)
    (hn : 1 < st.webServers.length) :
    (scaleServers st).webServers = st.webServers.dropLast ∧
    (scaleServers st).scaleCooldown = SCALE_WAIT ∧
    (∀ st₂ : LBState, st₂.scaleCooldown = 0 → st₂.webServers.length = 1 →
      ¬ 25 * st₂.webServers.length < st₂.requestQueue.length → scaleServers st₂ = st₂) := by
  have hup : ¬ 25 * st.webServers.length < st.requestQueue.length := by omega
  have hmain : scaleServers st
      = { st with webServers := st.webServers.dropLast, scaleCooldown := SCALE_WAIT } := by
    unfold scaleServers
    rw [if_neg (by omega), if_neg hup, if_pos ⟨hq, hn⟩]
  refine ⟨by rw [hmain], by rw [hmain], ?_⟩
  intro st₂ hcd₂ hn₂ hup₂
  unfold scaleServers
  rw [if_neg (by omega), if_neg hup₂, if_neg (by omega)]

theorem scale_down_unconditional_witness :
    busyLastState.scaleCooldown = 0 ∧
    busyLastState.requestQueue.length < 15 * busyLastState.webServers.length ∧
    1 < busyLastState.webServers.length ∧
    (scaleServers busyLastState).webServers = busyLastState.webServers.dropLast :=
  ⟨rfl, by decide, by decide,
    (scale_down_unconditional busyLastState rfl (by decide) (by decide)).1⟩

/-- C5: the autoscaler consumes a positive cooldown (decrement by 1, no
scaling action regardless of queue pressure); with cooldown 0 and
`q > 25 * n` it appends exactly one worker carrying the next sequential id
(`n`, extending ids `0, …, n-1` to `0, …, n`) and sets the cooldown to
`SCALE_WAIT = 3`; from queue length 26, pool size 1, cooldown 0 one evaluation
gives pool size 2 and cooldown 3. -/
theorem autoscaler_cooldown_and_scale_up (st : LBState) :
    (0 < st.scaleCooldown →
      scaleServers st = { st with scaleCooldown := st.scaleCooldown - 1 }) ∧
    (st.scaleCooldown = 0 → 25 * st.webServers.length < st.requestQueue.length →
      (scaleServers st).webServers = st.webServers ++ [WebServer.mk0 st.webServers.length] ∧
      (scaleServers st).scaleCooldown = SCALE_WAIT ∧ SCALE_WAIT = 3 ∧
      (st.webServers.map WebServer.serverID = List.range st.webServers.length →
        (scaleServers st).webServers.map WebServer.serverID
          = List.range (st.webServers.length + 1))) ∧
    ((scaleServers pressureState).webServers.length = 2 ∧
      (scaleServers pressureState).scaleCooldown = 3) := by
  refine ⟨?_, ?_, by decide, by decide⟩
  · intro hcd
    unfold scaleServers
    rw [if_pos hcd]
  · intro hcd hq
    have hmain : scaleServers st
        = { st with webServers := st.webServers ++ [WebServer.mk0 st.webServers.length]
                    scaleCooldown := SCALE_WAIT } := by
      unfold scaleServers
      rw [if_neg (by omega), if_pos hq]
    refine ⟨by rw [hmain], by rw [hmain], rfl, ?_⟩
    intro hid
    rw [hmain]
    simp only [List.map_append, hid, List.map_cons, List.map_nil]
    rw [List.range_succ]
    rfl

theorem autoscaler_cooldown_and_scale_up_witness :
    pressureState.scaleCooldown = 0 ∧
    25 * pressureState.webServers.length < pressureState.requestQueue.length ∧
    (scaleServers pressureState).webServers
      = pressureState.webServers ++ [WebServer.mk0 pressureState.webServers.length] ∧
    0 < coolingState.scaleCooldown ∧
    scaleServers coolingState = { coolingState with scaleCooldown := coolingState.scaleCooldown - 1 } :=
  ⟨rfl, by decide,
    ((autoscaler_cooldown_and_scale_up pressureState).2.1 rfl (by decide)).1,
    by decide,
    (autoscaler_cooldown_and_scale_up coolingState).1 (by decide)⟩

/-- C4: each loop iteration is exactly Arrival, then Advance, then Dispatch,
then Autoscale, then Report; every worker of the Dispatch output is the
advanced worker unchanged or carries a full, undecremented `processingTime` of
a request popped from the queue; Autoscale only drops the last worker or
appends a fresh one, so surviving assigned workers keep that full time at the
end of the tick; the first decrement happens only at the next tick's Advance
(`handleRequest`). -/
theorem tick_phase_order (arrival : Option Request) (st stA st' : LBState)
    (hA : arrivalPhase arrival (bumpClock st) = .ok stA)
    (h : tickStep arrival st = .ok st') :
    st' = reportPhase (scaleServers (dispatchPhase (advancePhase stA))) ∧
    List.Forall₂ (fun w w' => w' = w ∨ ∃ r ∈ (advancePhase stA).requestQueue,
        w' = w.processRequest r ∧ w'.timeRemaining = r.processingTime)
      (advancePhase stA).webServers (dispatchPhase (advancePhase stA)).webServers ∧
    (st'.webServers = (dispatchPhase (advancePhase stA)).webServers ∨
      st'.webServers = (dispatchPhase (advancePhase stA)).webServers.dropLast ∨
      st'.webServers = (dispatchPhase (advancePhase stA)).webServers
        ++ [WebServer.mk0 (dispatchPhase (advancePhase stA)).webServers.length]) ∧
    (∀ (w : WebServer) (r : Request), 0 < r.processingTime →
      ((w.processRequest r).handleRequest).timeRemaining = r.processingTime - 1) := by
  unfold tickStep at h
  rw [hA] at h
  simp only [Except.ok.injEq] at h
  subst h
  refine ⟨rfl, ?_, ?_, ?_⟩
  · have heq : (dispatchPhase (advancePhase stA)).webServers
        = (dispatchLoop (advancePhase stA).webServers (advancePhase stA).requestQueue
            (advancePhase stA).totalRequestsProcessed).1 := by
      simp [dispatchPhase]
    rw [heq]
    refine List.Forall₂.imp ?_
      (dispatchLoop_rel (advancePhase stA).webServers (advancePhase stA).requestQueue
        (advancePhase stA).totalRequestsProcessed)
    intro w w' hcase
    rcases hcase with rfl | ⟨r, hr, rfl⟩
    · exact Or.inl rfl
    · exact Or.inr ⟨r, hr, rfl, processRequest_timeRemaining w r⟩
  · simpa [reportPhase] using scaleServers_pool_cases (dispatchPhase (advancePhase stA))
  · intro w r hpt
    show (WebServer.handleRequest _).timeRemaining = _
    unfold WebServer.handleRequest
    rw [if_pos ⟨rfl, by simpa [WebServer.processRequest] using hpt⟩]
    rfl

theorem tick_phase_order_witness :
    arrivalPhase none (bumpClock oneIdleState) = .ok (bumpClock oneIdleState) ∧
    tickStep none oneIdleState = .ok oneIdleTickResult ∧
    oneIdleTickResult
      = reportPhase (scaleServers (dispatchPhase (advancePhase (bumpClock oneIdleState)))) :=
  ⟨rfl, rfl, (tick_phase_order none oneIdleState (bumpClock oneIdleState)
    oneIdleTickResult rfl rfl).1⟩

/-- C6: for a request whose origin address has a parseable leading component
of numeric value `o`, admission rejects it exactly when `o` lies in the closed
interval [192, 200]; rejection increments `blockedRequests` by exactly 1 and
leaves everything else, the queue included, unchanged; acceptance appends the
request at the queue tail and changes nothing else; "193.10.1.1" is
rejected. -/
theorem admission_filter_range (st : LBState) (req : Request) (o : Int)
    (hp : stoi (firstComponent req.ipIn) = .ok o) :
    (isBlockedIP req.ipIn = .ok true ↔ (192 ≤ o ∧ o ≤ 200)) ∧
    ((192 ≤ o ∧ o ≤ 200) →
      arrivalPhase (some req) st = .ok { st with blockedRequests := st.blockedRequests + 1 }) ∧
    (¬(192 ≤ o ∧ o ≤ 200) →
      arrivalPhase (some req) st = .ok { st with requestQueue := st.requestQueue ++ [req] }) ∧
    isBlockedIP "193.10.1.1" = .ok true := by
  have hb : isBlockedIP req.ipIn = .ok (decide (192 ≤ o ∧ o ≤ 200)) := by
    unfold isBlockedIP
    rw [hp]
  refine ⟨?_, ?_, ?_, rfl⟩
  · rw [hb]
    simp
  · intro hin
    have hred : arrivalPhase (some req) st
        = match isBlockedIP req.ipIn with
          | .error e => .error e
          | .ok true => .ok { st with blockedRequests := st.blockedRequests + 1 }
          | .ok false => .ok { st with requestQueue := st.requestQueue ++ [req] } := rfl
    rw [hred, hb, decide_eq_true hin]
  · intro hout
    have hred : arrivalPhase (some req) st
        = match isBlockedIP req.ipIn with
          | .error e => .error e
          | .ok true => .ok { st with blockedRequests := st.blockedRequests + 1 }
          | .ok false => .ok { st with requestQueue := st.requestQueue ++ [req] } := rfl
    rw [hred, hb, decide_eq_false hout]

theorem admission_filter_range_witness :
    stoi (firstComponent blockedReq.ipIn) = .ok 193 ∧
    ((192:Int) ≤ 193 ∧ (193:Int) ≤ 200) ∧
    arrivalPhase (some blockedReq) oneIdleState
      = .ok { oneIdleState with blockedRequests := oneIdleState.blockedRequests + 1 } :=
  ⟨rfl, by decide,
    (admission_filter_range oneIdleState blockedReq 193 rfl).2.1 (by decide)⟩

/-- C8: in every reachable engine state every worker has non-negative
remaining time and is idle exactly when it is 0; `handleRequest` never takes
a non-negative remaining time below zero; and `handleRequest` on an idle
worker is a no-op — calling it twice in a row leaves the worker unchanged both
times. -/
theorem worker_invariant_reachable {st : LBState} (h : Reachable st) :
    (∀ w ∈ st.webServers,
      0 ≤ w.timeRemaining ∧ (w.isNotActive = true ↔ w.timeRemaining = 0)) ∧
    (∀ w : WebServer, 0 ≤ w.timeRemaining → 0 ≤ w.handleRequest.timeRemaining) ∧
    (∀ w : WebServer, w.isNotActive = true →
      w.handleRequest = w ∧ w.handleRequest.handleRequest = w) := by
  obtain ⟨-, hw, -⟩ := reachable_StInv h
  refine ⟨fun w hww => ?_, fun w h0 => handleRequest_nonneg h0, fun w hidle => ?_⟩
  · obtain ⟨h0, hiff⟩ := hw w hww
    exact ⟨h0, by simpa [WebServer.isNotActive] using hiff⟩
  · have h1 : w.handleRequest = w :=
      handleRequest_of_idle (by simpa [WebServer.isNotActive] using hidle)
    exact ⟨h1, by rw [h1, h1]⟩

theorem worker_invariant_reachable_witness :
    0 ≤ (WebServer.mk0 0).timeRemaining ∧
    ((WebServer.mk0 0).isNotActive = true ↔ (WebServer.mk0 0).timeRemaining = 0) :=
  (worker_invariant_reachable
    (Reachable.init sampleGen (fun _ => ⟨"1.2.3.4", "5.6.7.8", 0, 0, 0, rfl⟩) 1 3)).1
    (WebServer.mk0 0) (by decide)
